import Mathlib

/-!
# CoolGame: key-state tracker, colours, frame-loop flag, camera motion and DDA step

A shallow embedding of `src/GraphicsEngine.hpp` and `src/GameLogic.hpp`.

* C++ `int` values are modelled by `Int`. The only integer arithmetic in the
  modelled code is comparison, the division of a colour channel and the unit
  steps of the DDA map indices; overflow is not modelled.
* C++ `double` values are modelled by exact arithmetic: an arbitrary linearly
  ordered field with a floor function for the camera, and an arbitrary linear
  order with addition for the DDA loop. `std::cos` and `std::sin` are
  parameters of the definitions that use them; the rotation theorems
  instantiate them with the real cosine and sine. The conversion `int(x)` is
  truncation toward zero.
* `std::unordered_map<int, KeyState>` is modelled by a function
  `Int → Option KeyState` (`none` = key absent from the map).
* The constants of `Settings.hpp` (`MAP_WIDTH`, `MAP_HEIGHT`, `worldMap`) are
  fields of the game state, supplied at construction.
-/

namespace GraphicsEngine

/-! ## StateManager (GraphicsEngine.hpp, lines 41-92) -/

/-- The enumeration `StateManager::KeyState`. -/
inductive KeyState where
  | NotObserved
  | Pressed
  | Released
  | NoChange
  deriving DecidableEq

/-- The class `StateManager`: its only member is `state_map`. -/
structure StateManager where
  state_map : Int → Option KeyState

namespace StateManager

/-- A freshly constructed `StateManager`: the map is empty. -/
def fresh : StateManager := ⟨fun _ => none⟩

/-- The private method `get_state`: the stored state, or `NotObserved` when the
key is absent. -/
def get_state (m : StateManager) (key : Int) : KeyState :=
  match m.state_map key with
  | some s => s
  | none => KeyState.NotObserved

/-- The method `is_key_hold`. -/
def is_key_hold (m : StateManager) (key_code : Int) : Bool :=
  if m.get_state key_code = KeyState.Pressed then true else false

/-- The assignment `state_map[key_code] = v`. -/
def assign (m : StateManager) (key_code : Int) (v : KeyState) : StateManager :=
  ⟨fun k => if k = key_code then some v else m.state_map k⟩

/-- The method `check_change`: returns the reported edge and the new manager. -/
def check_change (m : StateManager) (state : Bool) (key_code : Int) :
    KeyState × StateManager :=
  let last_key_state := m.get_state key_code
  let current_key_state := if state then KeyState.Pressed else KeyState.Released
  let last_key_state :=
    if last_key_state = KeyState.NotObserved then KeyState.Released else last_key_state
  if last_key_state = current_key_state then (KeyState.NoChange, m)
  else if last_key_state = KeyState.Pressed ∧ current_key_state = KeyState.Released then
    (KeyState.Released, m.assign key_code KeyState.Released)
  else if last_key_state = KeyState.Released ∧ current_key_state = KeyState.Pressed then
    (KeyState.Pressed, m.assign key_code KeyState.Pressed)
  else (KeyState.NoChange, m)

/-- A sequence of `check_change` calls, each given as `(state, key_code)`; the
result is the list of `(key_code, returned value)` in call order, and the final
manager. -/
def run (m : StateManager) : List (Bool × Int) → List (Int × KeyState) × StateManager
  | [] => ([], m)
  | (state, key_code) :: rest =>
    let r := m.check_change state key_code
    let tl := run r.2 rest
    ((key_code, r.1) :: tl.1, tl.2)

/-- The value returned by the most recent call for key `k` in a trace of
`(key_code, returned value)` pairs that returned something other than
`NoChange`; `none` when there is no such call. -/
def lastChange (k : Int) : List (Int × KeyState) → Option KeyState
  | [] => none
  | (key_code, r) :: rest =>
    match lastChange k rest with
    | some r' => some r'
    | none => if key_code = k ∧ r ≠ KeyState.NoChange then some r else none

end StateManager

/-! ## Color (GraphicsEngine.hpp, lines 94-173) -/

/-- The class `Color`: four public `int` fields. -/
structure Color where
  red : Int
  green : Int
  blue : Int
  gamma : Int
  deriving DecidableEq

namespace Color

/-- The helper `clamp`. -/
def clamp (value min max : Int) : Int :=
  if value < min then min
  else if value > max then max
  else value

/-- The constructor `Color(r, g, b, a)`, which clamps its arguments. -/
def create (r g b a : Int) : Color :=
  ⟨clamp r 0 255, clamp g 0 255, clamp b 0 255, clamp a 0 100⟩

/-- The constructor `Color()`. -/
def createDefault : Color := ⟨0, 0, 0, 0⟩

/-- The method `clampAll`. -/
def clampAll (c : Color) : Color :=
  ⟨clamp c.red 0 255, clamp c.green 0 255, clamp c.blue 0 255, clamp c.gamma 0 100⟩

/-- The method `set`. -/
def set (_c : Color) (r g b a : Int) : Color :=
  ⟨clamp r 0 255, clamp g 0 255, clamp b 0 255, clamp a 0 100⟩

/-- The method `copy`: the receiver `_d` after `_d.copy(other)`. -/
def copy (_d : Color) (other : Color) : Color :=
  ⟨clamp other.red 0 255, clamp other.green 0 255, clamp other.blue 0 255,
    clamp other.gamma 0 100⟩

/-- The operator `operator/`: C++ integer division truncates toward zero. -/
def div (c : Color) (divisor : Int) : Color :=
  if divisor = 0 then c
  else create (c.red.tdiv divisor) (c.green.tdiv divisor) (c.blue.tdiv divisor) c.gamma

/-- The channels of a colour are in range: red, green, blue in 0..255 and
gamma in 0..100. -/
def InRange (c : Color) : Prop :=
  (0 ≤ c.red ∧ c.red ≤ 255) ∧ (0 ≤ c.green ∧ c.green ≤ 255) ∧
    (0 ≤ c.blue ∧ c.blue ≤ 255) ∧ (0 ≤ c.gamma ∧ c.gamma ≤ 100)

end Color

/-! ## Window (GraphicsEngine.hpp, lines 269-459): the state the claims need -/

/-- The class `Window`, without its SDL handles. -/
structure Window where
  width : Int
  height : Int
  title : String
  running : Bool
  key_manager : StateManager
  mouse_manager : StateManager

namespace Window

/-- The constructor `Window(width, height, title)` when `initSDL` succeeds. -/
def create (width height : Int) (title : String) : Window :=
  { width := width, height := height, title := title, running := true,
    key_manager := StateManager.fresh, mouse_manager := StateManager.fresh }

/-- The private method `set_running`. -/
def set_running (w : Window) (value : Bool) : Window :=
  if (!value || !w.running) then { w with running := false } else w

/-- The method `exit_game`. -/
def exit_game (w : Window) : Window := w.set_running false

/-- The method `is_game_running`. -/
def is_game_running (w : Window) : Bool := w.running

/-- A call that can touch the running flag. -/
inductive RunCall where
  | set_running (value : Bool)
  | exit_game

/-- One call applied to a window. -/
def applyCall (w : Window) : RunCall → Window
  | RunCall.set_running value => w.set_running value
  | RunCall.exit_game => w.exit_game

/-- A sequence of calls applied in order. -/
def applyCalls (w : Window) : List RunCall → Window
  | [] => w
  | c :: cs => applyCalls (w.applyCall c) cs

end Window

end GraphicsEngine

namespace GameLogic

open GraphicsEngine

/-! ## SDL key codes used by the game (SDL_keycode.h: the ASCII codes) -/

/-- The SDL constant `SDLK_w`. -/
def SDLK_w : Int := 119

/-- The SDL constant `SDLK_s`. -/
def SDLK_s : Int := 115

/-- The SDL constant `SDLK_d`. -/
def SDLK_d : Int := 100

/-- The SDL constant `SDLK_a`. -/
def SDLK_a : Int := 97

/-- The constant `ESCAPE_KEY` of `handle_key_events`. -/
def ESCAPE_KEY : Int := 27

/-! ## Game (GameLogic.hpp) -/

/-- The class `Game`: a `Window` with the map and the camera. The map is a
`MAP_WIDTH` by `MAP_HEIGHT` array, given by its dimensions and its contents at
the indices inside them. -/
structure Game (α : Type) extends Window where
  MAP_WIDTH : Nat
  MAP_HEIGHT : Nat
  worldMap : Nat → Nat → Int
  posX : α
  posY : α
  dirX : α
  dirY : α
  planeX : α
  planeY : α

/-- The conversion `int(x)` of a `double`: truncation toward zero. -/
def toInt {α : Type} [LinearOrderedField α] [FloorRing α] (x : α) : Int :=
  if 0 ≤ x then ⌊x⌋ else ⌈x⌉

namespace Game

variable {α : Type}

/-- The array read `worldMap[i][j]`: `none` when an index is outside the array
(undefined behaviour in the source). -/
def cell (g : Game α) (i j : Int) : Option Int :=
  if 0 ≤ i ∧ i < g.MAP_WIDTH ∧ 0 ≤ j ∧ j < g.MAP_HEIGHT then
    some (g.worldMap i.toNat j.toNat)
  else none

/-- The constructor `Game(width, height, title)`: the map is copied from the
settings and the camera starts at its initial pose. -/
def create [LinearOrderedField α] (width height : Int) (title : String)
    (mapWidth mapHeight : Nat) (settingsWorldMap : Nat → Nat → Int) : Game α :=
  { toWindow := Window.create width height title
    MAP_WIDTH := mapWidth
    MAP_HEIGHT := mapHeight
    worldMap := settingsWorldMap
    posX := 22
    posY := 12
    dirX := -1
    dirY := 0
    planeX := 0
    planeY := 66 / 100 }

section Motion

variable [LinearOrderedField α] [FloorRing α]

/-- The body of `if (key_manager.is_key_hold(SDLK_w))` in `on_update`. -/
def moveForward (g : Game α) (moveSpeed : α) : Option (Game α) := do
  let c1 ← g.cell (toInt (g.posX + g.dirX * moveSpeed)) (toInt g.posY)
  let g1 := if c1 = 0 then { g with posX := g.posX + g.dirX * moveSpeed } else g
  let c2 ← g1.cell (toInt g1.posX) (toInt (g1.posY + g1.dirY * moveSpeed))
  let g2 := if c2 = 0 then { g1 with posY := g1.posY + g1.dirY * moveSpeed } else g1
  pure g2

/-- The body of `if (key_manager.is_key_hold(SDLK_s))` in `on_update`. -/
def moveBackward (g : Game α) (moveSpeed : α) : Option (Game α) := do
  let c1 ← g.cell (toInt (g.posX - g.dirX * moveSpeed)) (toInt g.posY)
  let g1 := if c1 = 0 then { g with posX := g.posX - g.dirX * moveSpeed } else g
  let c2 ← g1.cell (toInt g1.posX) (toInt (g1.posY - g1.dirY * moveSpeed))
  let g2 := if c2 = 0 then { g1 with posY := g1.posY - g1.dirY * moveSpeed } else g1
  pure g2

/-- The body shared by the two rotation blocks of `on_update`: both the
direction and the plane are turned by `angle` (`-rotSpeed` for D, `rotSpeed`
for A). -/
def rotate (cos sin : α → α) (g : Game α) (angle : α) : Game α :=
  let oldDirX := g.dirX
  let dirX := g.dirX * cos angle - g.dirY * sin angle
  let dirY := oldDirX * sin angle + g.dirY * cos angle
  let oldPlaneX := g.planeX
  let planeX := g.planeX * cos angle - g.planeY * sin angle
  let planeY := oldPlaneX * sin angle + g.planeY * cos angle
  { g with dirX := dirX, dirY := dirY, planeX := planeX, planeY := planeY }

/-- The method `on_update`; `none` when a map index is out of bounds. -/
def on_update (cos sin : α → α) (g : Game α) (delta_time : α) : Option (Game α) := do
  let moveSpeed := delta_time * 5
  let rotSpeed := delta_time * 3
  let g ← if g.key_manager.is_key_hold SDLK_w then g.moveForward moveSpeed else pure g
  let g ← if g.key_manager.is_key_hold SDLK_s then g.moveBackward moveSpeed else pure g
  let g := if g.key_manager.is_key_hold SDLK_d then g.rotate cos sin (-rotSpeed) else g
  let g := if g.key_manager.is_key_hold SDLK_a then g.rotate cos sin rotSpeed else g
  pure g

/-- The input events that `handle_events` distinguishes. -/
inductive Event where
  | quit
  | key (down : Bool) (key_code : Int)
  | mouseButton (down : Bool) (button_code : Int)
  | mouseMotion

/-- The method `handle_key_events`. -/
def handle_key_events (g : Game α) (down : Bool) (key_code : Int) : Game α :=
  if key_code = ESCAPE_KEY then { g with toWindow := g.toWindow.exit_game }
  else { g with key_manager := (g.key_manager.check_change down key_code).2 }

/-- The method `handle_mouse_events` for a button event. -/
def handle_mouse_events (g : Game α) (down : Bool) (button_code : Int) : Game α :=
  { g with mouse_manager := (g.mouse_manager.check_change down button_code).2 }

/-- The method `handle_events`, on the events pending at the tick. -/
def handle_events (g : Game α) : List Event → Game α
  | [] => g
  | Event.quit :: es => handle_events { g with toWindow := g.toWindow.exit_game } es
  | Event.key down key_code :: es => handle_events (g.handle_key_events down key_code) es
  | Event.mouseButton down b :: es => handle_events (g.handle_mouse_events down b) es
  | Event.mouseMotion :: es => handle_events g es

/-- The loop of `run` over a list of ticks, each with its pending events and
its `delta_time`; drawing does not change the state. The loop ends when the
running flag is false or the ticks are used up. -/
def runTicks (cos sin : α → α) (g : Game α) : List (List Event × α) → Option (Game α)
  | [] => some g
  | (events, delta_time) :: ticks =>
    if g.running then
      match (g.handle_events events).on_update cos sin delta_time with
      | some g' => runTicks cos sin g' ticks
      | none => none
    else some g

end Motion

/-! ### The DDA loop of `on_draw` (GameLogic.hpp, lines 92-109) -/

/-- The per-column values the DDA loop reads but does not change. -/
structure Ray (α : Type) where
  stepX : Int
  stepY : Int
  deltaDistX : α
  deltaDistY : α

/-- The variables the DDA loop changes. -/
structure DDAState (α : Type) where
  mapX : Int
  mapY : Int
  sideDistX : α
  sideDistY : α
  side : Int
  totalDistance : α

section DDA

variable [LinearOrder α] [Add α]

/-- The body of the `while (!hit)` loop up to the map read (lines 97-107). -/
def ddaStep (r : Ray α) (s : DDAState α) : DDAState α :=
  let side : Int := if s.sideDistX < s.sideDistY then 0 else 1
  if side = 0 then
    { s with
      side := side
      sideDistX := s.sideDistX + r.deltaDistX
      mapX := s.mapX + r.stepX
      totalDistance := s.totalDistance + r.deltaDistX }
  else
    { s with
      side := side
      sideDistY := s.sideDistY + r.deltaDistY
      mapY := s.mapY + r.stepY
      totalDistance := s.totalDistance + r.deltaDistY }

/-- How a bounded run of the DDA loop ends. -/
inductive DDAResult (α : Type) where
  | hit (s : DDAState α)
  | outOfBounds (s : DDAState α)
  | outOfFuel (s : DDAState α)

/-- The loop `while (!hit)`, run for at most `fuel` iterations: each iteration
steps and then reads `worldMap[mapX][mapY] > 0`. -/
def ddaLoop (g : Game α) (r : Ray α) : Nat → DDAState α → DDAResult α
  | 0, s => DDAResult.outOfFuel s
  | fuel + 1, s =>
    let s' := ddaStep r s
    match g.cell s'.mapX s'.mapY with
    | none => DDAResult.outOfBounds s'
    | some c => if c > 0 then DDAResult.hit s' else ddaLoop g r fuel s'

end DDA

/-- The method `choose_color`. -/
def choose_color (wallType side : Int) : Color :=
  let RGB_Red := Color.create 255 0 0 100
  let RGB_Green := Color.create 0 255 0 100
  let RGB_Blue := Color.create 0 0 255 100
  let RGB_White := Color.create 255 255 255 100
  let RGB_Yellow := Color.create 255 255 0 100
  let color := Color.createDefault
  let color :=
    if wallType = 1 then color.copy RGB_Red
    else if wallType = 2 then color.copy RGB_Green
    else if wallType = 3 then color.copy RGB_Blue
    else if wallType = 4 then color.copy RGB_White
    else color.copy RGB_Yellow
  color.div (side + 1)

end Game

/-- The base colour of a material code as the specification lists it:
1 red, 2 green, 3 blue, 4 white, anything else yellow. -/
def specBaseColor (wallType : Int) : Int × Int × Int :=
  if wallType = 1 then (255, 0, 0)
  else if wallType = 2 then (0, 255, 0)
  else if wallType = 3 then (0, 0, 255)
  else if wallType = 4 then (255, 255, 255)
  else (255, 255, 0)

/-- The motion example of the specification: camera at (5, 5) facing (1, 0),
only W held, every cell (6, y) a wall and every other cell empty, on a 24 by 24
map. -/
def motionExample : Game ℚ :=
  { Game.create 640 480 "game" 24 24 (fun i _ => if i = 6 then 1 else 0) with
    key_manager := (StateManager.fresh.check_change true SDLK_w).2
    posX := 5
    posY := 5
    dirX := 1
    dirY := 0 }

/-- A camera at (5.5, 5.5) moving along (1, 1) with only W held, on the map of
the motion example: the X destination is a wall, the Y destination is empty. -/
def slideExample : Game ℚ :=
  { motionExample with posX := 11 / 2, posY := 11 / 2, dirX := 1, dirY := 1 }

/-- The ray of a tie: direction (1, 1), so both axes cross one cell per unit. -/
def tieRay : Game.Ray ℚ := { stepX := 1, stepY := 1, deltaDistX := 1, deltaDistY := 1 }

/-- The loop state at the first iteration for a camera at (1.5, 1.5) and the
ray of direction (1, 1): both side distances are 1/2. -/
def tieState : Game.DDAState ℚ :=
  { mapX := 1, mapY := 1, sideDistX := 1 / 2, sideDistY := 1 / 2, side := 0,
    totalDistance := 0 }

/-- A loop state whose X side distance is the larger one: sideDistX = 10 and
sideDistY = 1. -/
def yNearState : Game.DDAState ℚ :=
  { mapX := 1, mapY := 1, sideDistX := 10, sideDistY := 1, side := 0, totalDistance := 0 }

/-- A loop state whose X side distance is the smaller one: sideDistX = 1 and
sideDistY = 10. -/
def xNearState : Game.DDAState ℚ :=
  { mapX := 1, mapY := 1, sideDistX := 1, sideDistY := 10, side := 0, totalDistance := 0 }

namespace Game

variable {α : Type}

/-- The direction and plane vectors of two game states coincide. -/
def SameView (g g' : Game α) : Prop :=
  g'.dirX = g.dirX ∧ g'.dirY = g.dirY ∧ g'.planeX = g.planeX ∧ g'.planeY = g.planeY

/-- The squared norms of direction and plane and their dot product coincide. -/
def SameShape [LinearOrderedField α] (g g' : Game α) : Prop :=
  g'.dirX ^ 2 + g'.dirY ^ 2 = g.dirX ^ 2 + g.dirY ^ 2 ∧
    g'.planeX ^ 2 + g'.planeY ^ 2 = g.planeX ^ 2 + g.planeY ^ 2 ∧
    g'.dirX * g'.planeX + g'.dirY * g'.planeY = g.dirX * g.planeX + g.dirY * g.planeY

section DDAEntry

variable [LinearOrderedField α] [FloorRing α]

/-- The values with which `on_draw` enters the DDA loop for a ray of direction
`(rayDirX, rayDirY)` (lines 82-93). The values `deltaDistX` and `deltaDistY`,
which the source computes as `std::abs(1 / rayDir)` (infinite for a zero
component in IEEE arithmetic), are taken as given. The variable `side` is
uninitialised at loop entry and is written before it is read; it starts at 0
here. -/
def ddaEntry (g : Game α) (rayDirX rayDirY deltaDistX deltaDistY : α) :
    Ray α × DDAState α :=
  let mapX : Int := toInt g.posX
  let mapY : Int := toInt g.posY
  let stepX : Int := if rayDirX < 0 then -1 else 1
  let stepY : Int := if rayDirY < 0 then -1 else 1
  let sideDistX :=
    if stepX = -1 then (g.posX - mapX) * deltaDistX else (mapX + 1 - g.posX) * deltaDistX
  let sideDistY :=
    if stepY = -1 then (g.posY - mapY) * deltaDistY else (mapY + 1 - g.posY) * deltaDistY
  ({ stepX := stepX, stepY := stepY, deltaDistX := deltaDistX, deltaDistY := deltaDistY },
    { mapX := mapX, mapY := mapY, sideDistX := sideDistX, sideDistY := sideDistY,
      side := 0, totalDistance := 0 })

end DDAEntry

section DDAPath

variable [LinearOrder α] [Add α]

/-- The loop state after `n` iterations of the loop body, starting from `s`. -/
def ddaIter (r : Ray α) : Nat → DDAState α → DDAState α
  | 0, s => s
  | n + 1, s => ddaIter r n (ddaStep r s)

end DDAPath

/-- Every border cell of the map has a positive code. -/
def Enclosed (g : Game α) : Prop :=
  ∀ i, i < g.MAP_WIDTH → ∀ j, j < g.MAP_HEIGHT →
    (i = 0 ∨ i + 1 = g.MAP_WIDTH ∨ j = 0 ∨ j + 1 = g.MAP_HEIGHT) → 0 < g.worldMap i j

/-- The cell `(mapX, mapY)` of a loop state lies strictly inside the border of
the map. -/
def StrictlyInside (g : Game α) (s : DDAState α) : Prop :=
  0 < s.mapX ∧ s.mapX + 1 < g.MAP_WIDTH ∧ 0 < s.mapY ∧ s.mapY + 1 < g.MAP_HEIGHT

/-- The index pair `(mapX, mapY)` of a loop state lies inside the array:
`0 <= mapX < MAP_WIDTH` and `0 <= mapY < MAP_HEIGHT`. -/
def InBounds (g : Game α) (s : DDAState α) : Prop :=
  0 ≤ s.mapX ∧ s.mapX < g.MAP_WIDTH ∧ 0 ≤ s.mapY ∧ s.mapY < g.MAP_HEIGHT

/-- Both steps of a ray are -1 or 1, as lines 85-86 set them. -/
def UnitSteps (r : Ray α) : Prop :=
  (r.stepX = -1 ∨ r.stepX = 1) ∧ (r.stepY = -1 ∨ r.stepY = 1)

/-- The number of cells between a loop state and the border ahead of it, summed
over the two axes: the steps the ray can still take before it must stand on a
border cell. -/
def borderDist (g : Game α) (r : Ray α) (s : DDAState α) : Int :=
  (if r.stepX = 1 then (g.MAP_WIDTH : Int) - 1 - s.mapX else s.mapX) +
    (if r.stepY = 1 then (g.MAP_HEIGHT : Int) - 1 - s.mapY else s.mapY)

end Game

/-- A 6 by 3 map whose column 2 holds the negative code -1 and whose column 4
holds the wall code 3; every other cell is empty. The camera stands at
(1.5, 1.5). -/
def negExample : Game ℚ :=
  { Game.create 640 480 "game" 6 3 (fun i _ => if i = 2 then -1 else if i = 4 then 3 else 0)
    with posX := 3 / 2, posY := 3 / 2 }

/-- The ray of direction (1/2, 1/20): `deltaDistX = 2` and `deltaDistY = 20`. -/
def negRay : Game.Ray ℚ := { stepX := 1, stepY := 1, deltaDistX := 2, deltaDistY := 20 }

/-- The loop state at entry for the camera of `negExample` and `negRay`. -/
def negStart : Game.DDAState ℚ :=
  { mapX := 1, mapY := 1, sideDistX := 1, sideDistY := 10, side := 0, totalDistance := 0 }

/-- A 5 by 5 map with wall code 1 on the whole border and an empty interior;
the camera stands at (2.5, 2.5). -/
def boxExample : Game ℚ :=
  { Game.create 640 480 "game" 5 5
      (fun i j => if i = 0 ∨ i = 4 ∨ j = 0 ∨ j = 4 then 1 else 0)
    with posX := 5 / 2, posY := 5 / 2 }

/-- The loop entry of `on_draw` on `boxExample` for the ray of direction
(1/2, 1/20), with `deltaDistX = 2` and `deltaDistY = 20`. -/
def boxEntry : Game.Ray ℚ × Game.DDAState ℚ := boxExample.ddaEntry (1 / 2) (1 / 20) 2 20

end GameLogic

/-! # Theorems -/

namespace GraphicsEngine

namespace StateManager

theorem run_append (m : StateManager) (a b : List (Bool × Int)) :
    m.run (a ++ b) = ((m.run a).1 ++ ((m.run a).2.run b).1, ((m.run a).2.run b).2) := by
  induction a generalizing m with
  | nil => simp [run]
  | cons c cs ih =>
    obtain ⟨state, key_code⟩ := c
    simp [run, ih]

theorem get_state_assign (m : StateManager) (k : Int) (v : KeyState) :
    (m.assign k v).get_state k = v := by
  simp [get_state, assign]

theorem get_state_assign_ne (m : StateManager) (k k' : Int) (v : KeyState) (h : k' ≠ k) :
    (m.assign k v).get_state k' = m.get_state k' := by
  simp [get_state, assign, h]

theorem run_replicate_pressed (m : StateManager) (k : Int) (n : Nat)
    (h : m.get_state k = KeyState.Pressed) :
    m.run (List.replicate n (true, k)) = (List.replicate n (k, KeyState.NoChange), m) := by
  induction n with
  | zero => simp [run]
  | succ n ih => simp [List.replicate_succ, run, check_change, h, ih]

theorem run_replicate_released (m : StateManager) (k : Int) (n : Nat)
    (h : m.get_state k = KeyState.Released) :
    m.run (List.replicate n (false, k)) = (List.replicate n (k, KeyState.NoChange), m) := by
  induction n with
  | zero => simp [run]
  | succ n ih => simp [List.replicate_succ, run, check_change, h, ih]

theorem check_change_fresh_true (k : Int) :
    fresh.check_change true k = (KeyState.Pressed, fresh.assign k KeyState.Pressed) := by
  simp [check_change, get_state, fresh]

theorem check_change_pressed_false (m : StateManager) (k : Int)
    (h : m.get_state k = KeyState.Pressed) :
    m.check_change false k = (KeyState.Released, m.assign k KeyState.Released) := by
  simp [check_change, h]

/-- C1: on a freshly constructed StateManager, for every key code k, the first
check_change(true, k) returns Pressed, each of the n following
check_change(true, k) calls returns NoChange, the next check_change(false, k)
returns Released, and each of the m following check_change(false, k) calls
returns NoChange. -/
theorem check_change_edge_sequence (k : Int) (n m : Nat) :
    (fresh.run ((true, k) :: (List.replicate n (true, k) ++
        (false, k) :: List.replicate m (false, k)))).1 =
      (k, KeyState.Pressed) :: (List.replicate n (k, KeyState.NoChange) ++
        (k, KeyState.Released) :: List.replicate m (k, KeyState.NoChange)) := by
  have h1 : (fresh.assign k KeyState.Pressed).get_state k = KeyState.Pressed :=
    get_state_assign _ _ _
  have h2 : ((fresh.assign k KeyState.Pressed).assign k KeyState.Released).get_state k =
      KeyState.Released := get_state_assign _ _ _
  simp only [run, check_change_fresh_true, run_append, run_replicate_pressed _ k n h1,
    check_change_pressed_false _ k h1, run_replicate_released _ k m h2]

/-- The manager is unchanged by a call that returns NoChange, and after a call
that returns anything else the stored state of the key is the returned value;
other keys are never touched. -/
theorem check_change_effect (m : StateManager) (state : Bool) (key_code k : Int) :
    (m.check_change state key_code).2.is_key_hold k =
      if key_code = k ∧ (m.check_change state key_code).1 ≠ KeyState.NoChange then
        decide ((m.check_change state key_code).1 = KeyState.Pressed)
      else m.is_key_hold k := by
  by_cases hk : key_code = k
  · subst hk
    cases state <;> cases hs : m.get_state key_code <;>
      simp [check_change, hs, is_key_hold, get_state_assign]
  · have hk' : k ≠ key_code := fun h => hk h.symm
    cases state <;> cases hs : m.get_state key_code <;>
      simp [check_change, hs, is_key_hold, get_state_assign_ne _ _ _ _ hk', hk]

theorem is_key_hold_run (m : StateManager) (calls : List (Bool × Int)) (k : Int) :
    (m.run calls).2.is_key_hold k =
      match lastChange k (m.run calls).1 with
      | some r => decide (r = KeyState.Pressed)
      | none => m.is_key_hold k := by
  induction calls generalizing m with
  | nil => simp [run, lastChange]
  | cons c cs ih =>
    obtain ⟨state, key_code⟩ := c
    simp only [run, lastChange]
    rw [ih]
    cases hl : lastChange k ((m.check_change state key_code).2.run cs).1 with
    | some r => simp
    | none =>
      simp only
      rw [check_change_effect]
      split <;> simp_all

/-- C2: after any finite sequence of check_change calls on a freshly
constructed StateManager, is_key_hold(k) is true exactly when the most recent
call for k that returned something other than NoChange returned Pressed; it is
false when no call for k returned a non-NoChange value. -/
theorem is_key_hold_iff_last_change_pressed (calls : List (Bool × Int)) (k : Int) :
    (fresh.run calls).2.is_key_hold k = true ↔
      lastChange k (fresh.run calls).1 = some KeyState.Pressed := by
  rw [is_key_hold_run]
  cases lastChange k (fresh.run calls).1 with
  | none => simp [is_key_hold, get_state, fresh]
  | some r => simp

end StateManager

namespace Color

theorem clamp_range (v lo hi : Int) (h : lo ≤ hi) :
    lo ≤ clamp v lo hi ∧ clamp v lo hi ≤ hi := by
  unfold clamp
  split_ifs <;> omega

theorem clamp_of_range (v lo hi : Int) (h1 : lo ≤ v) (h2 : v ≤ hi) : clamp v lo hi = v := by
  unfold clamp
  split_ifs <;> omega

theorem clamp_idem (v lo hi : Int) (h : lo ≤ hi) :
    clamp (clamp v lo hi) lo hi = clamp v lo hi :=
  clamp_of_range _ _ _ (clamp_range v lo hi h).1 (clamp_range v lo hi h).2

/-- C3: for every Color c with arbitrary integer fields, clampAll applied twice
gives the same four channels as clampAll applied once, and after d.copy(c) the
channels of d satisfy 0 <= red, green, blue <= 255 and 0 <= gamma <= 100. -/
theorem clampAll_idempotent_and_copy_in_range (c d : Color) :
    c.clampAll.clampAll = c.clampAll ∧
      (0 ≤ (d.copy c).red ∧ (d.copy c).red ≤ 255) ∧
      (0 ≤ (d.copy c).green ∧ (d.copy c).green ≤ 255) ∧
      (0 ≤ (d.copy c).blue ∧ (d.copy c).blue ≤ 255) ∧
      (0 ≤ (d.copy c).gamma ∧ (d.copy c).gamma ≤ 100) := by
  refine ⟨?_, ?_, ?_, ?_, ?_⟩
  · simp only [clampAll, clamp_idem _ 0 255 (by decide), clamp_idem _ 0 100 (by decide)]
  · exact clamp_range _ 0 255 (by decide)
  · exact clamp_range _ 0 255 (by decide)
  · exact clamp_range _ 0 255 (by decide)
  · exact clamp_range _ 0 100 (by decide)

/-- C4: for every Color c, whatever its fields hold, c / 0 is c itself: red,
green, blue and gamma are those of c. The operator is a total function, so no
error is raised. -/
theorem div_zero_returns_original (c : Color) :
    (c.div 0).red = c.red ∧ (c.div 0).green = c.green ∧
      (c.div 0).blue = c.blue ∧ (c.div 0).gamma = c.gamma := by
  simp [div]

end Color

namespace Window

theorem set_running_of_stopped (w : Window) (value : Bool) (h : w.running = false) :
    (w.set_running value).running = false := by
  unfold set_running
  split <;> simp_all

theorem applyCall_of_stopped (w : Window) (c : RunCall) (h : w.running = false) :
    (w.applyCall c).running = false := by
  cases c with
  | set_running value => exact set_running_of_stopped w value h
  | exit_game => exact set_running_of_stopped w false h

/-- C9: a Window starts with running = true; once running is false, it is
false after every later sequence of set_running(v) and exit_game calls
(set_running(true) included); and set_running(true) on a running window leaves
it running. -/
theorem running_flag_one_way :
    (∀ (width height : Int) (title : String),
      (create width height title).is_game_running = true) ∧
    (∀ (w : Window) (calls : List RunCall), w.is_game_running = false →
      (w.applyCalls calls).is_game_running = false) ∧
    (∀ w : Window, w.is_game_running = true →
      (w.set_running true).is_game_running = true) := by
  refine ⟨fun _ _ _ => rfl, ?_, ?_⟩
  · intro w calls
    induction calls generalizing w with
    | nil => exact fun h => h
    | cons c cs ih => exact fun h => ih (w.applyCall c) (applyCall_of_stopped w c h)
  · intro w h
    simp only [is_game_running] at h
    simp [is_game_running, set_running, h]

/-- Witness for C9: a window stopped by exit_game stays stopped through
set_running(true), exit_game, set_running(true); a new window survives
set_running(true). -/
theorem running_flag_one_way_witness :
    (((create 640 480 "game").exit_game).applyCalls
        [RunCall.set_running true, RunCall.exit_game,
          RunCall.set_running true]).is_game_running = false ∧
      ((create 640 480 "game").set_running true).is_game_running = true :=
  ⟨running_flag_one_way.2.1 ((create 640 480 "game").exit_game) _ (by decide),
    running_flag_one_way.2.2 (create 640 480 "game") (by decide)⟩

end Window

end GraphicsEngine

namespace GameLogic

open GraphicsEngine

namespace Game

/-- C5: for every integer wallType and every side in 0, 1, choose_color gives
the base colour of the material (1 red, 2 green, 3 blue, 4 white, every other
code yellow) with red, green and blue each divided by side + 1, truncating, and
gamma 100; choose_color(3, 1).blue = 127 and choose_color(3, 0).blue = 255. -/
theorem choose_color_spec (wallType side : Int) (hside : side = 0 ∨ side = 1) :
    choose_color wallType side =
        { red := (specBaseColor wallType).1.tdiv (side + 1)
          green := (specBaseColor wallType).2.1.tdiv (side + 1)
          blue := (specBaseColor wallType).2.2.tdiv (side + 1)
          gamma := 100 } ∧
      (choose_color 3 1).blue = 127 ∧ (choose_color 3 0).blue = 255 := by
  refine ⟨?_, by decide, by decide⟩
  unfold choose_color specBaseColor
  rcases hside with h | h <;> subst h <;> split_ifs <;> decide

/-- Witness for C5: a negative material code on a Y-side hit gives yellow at
half brightness. -/
theorem choose_color_spec_witness :
    ((1 : Int) = 0 ∨ (1 : Int) = 1) ∧
      choose_color (-7) 1 = { red := 127, green := 127, blue := 0, gamma := 100 } :=
  ⟨Or.inr rfl, (choose_color_spec (-7) 1 (Or.inr rfl)).1⟩

variable {α : Type}

section MotionLemmas

variable [LinearOrderedField α] [FloorRing α]

/-- With only W held, and both cells read by the forward block inside the map,
`on_update` returns the camera moved axis by axis. -/
theorem on_update_forward_only (cos sin : α → α) (g : Game α) (delta_time : α)
    (c1 c2 : Int)
    (hw : g.key_manager.is_key_hold SDLK_w = true)
    (hs : g.key_manager.is_key_hold SDLK_s = false)
    (hd : g.key_manager.is_key_hold SDLK_d = false)
    (ha : g.key_manager.is_key_hold SDLK_a = false)
    (h1 : g.cell (toInt (g.posX + g.dirX * (delta_time * 5))) (toInt g.posY) = some c1)
    (h2 : g.cell
        (toInt (if c1 = 0 then g.posX + g.dirX * (delta_time * 5) else g.posX))
        (toInt (g.posY + g.dirY * (delta_time * 5))) = some c2) :
    g.on_update cos sin delta_time =
      some { g with
        posX := if c1 = 0 then g.posX + g.dirX * (delta_time * 5) else g.posX
        posY := if c2 = 0 then g.posY + g.dirY * (delta_time * 5) else g.posY } := by
  have hf : g.moveForward (delta_time * 5) =
      some { g with
        posX := if c1 = 0 then g.posX + g.dirX * (delta_time * 5) else g.posX
        posY := if c2 = 0 then g.posY + g.dirY * (delta_time * 5) else g.posY } := by
    unfold moveForward
    by_cases hc1 : c1 = 0
    · by_cases hc2 : c2 = 0
      · simp_all [cell]
      · simp_all [cell]
    · by_cases hc2 : c2 = 0
      · simp_all [cell]
      · simp_all [cell]
  simp [on_update, hw, hs, hd, ha, hf]

end MotionLemmas

section MotionTheorems

variable [LinearOrderedField α] [FloorRing α]

theorem toInt_eq_of_mem_Ico (x : α) (n : Nat) (h1 : (n : α) ≤ x) (h2 : x < (n : α) + 1) :
    toInt x = (n : Int) := by
  have h0 : (0 : α) ≤ x := le_trans (Nat.cast_nonneg n) h1
  simp only [toInt, if_pos h0]
  rw [Int.floor_eq_iff]
  exact ⟨by exact_mod_cast h1, by exact_mod_cast h2⟩

/-- C7: with only W held and the addressed cells in bounds, on_update commits
the X move exactly when cell (trunc(posX + dirX*moveSpeed), trunc(posY)) has
code 0, then commits the Y move exactly when cell (trunc(new posX),
trunc(posY + dirY*moveSpeed)) has code 0; so with X blocked and Y free the
camera slides along Y; direction and plane are unchanged. -/
theorem forward_translation_axis_separated (cos sin : α → α) (g : Game α)
    (delta_time moveSpeed : α) (c1 c2 : Int)
    (hms : moveSpeed = delta_time * 5)
    (hw : g.key_manager.is_key_hold SDLK_w = true)
    (hs : g.key_manager.is_key_hold SDLK_s = false)
    (hd : g.key_manager.is_key_hold SDLK_d = false)
    (ha : g.key_manager.is_key_hold SDLK_a = false)
    (h1 : g.cell (toInt (g.posX + g.dirX * moveSpeed)) (toInt g.posY) = some c1)
    (h2 : g.cell
        (toInt (if c1 = 0 then g.posX + g.dirX * moveSpeed else g.posX))
        (toInt (g.posY + g.dirY * moveSpeed)) = some c2) :
    ∃ g', g.on_update cos sin delta_time = some g' ∧
      g'.posX = (if c1 = 0 then g.posX + g.dirX * moveSpeed else g.posX) ∧
      g'.posY = (if c2 = 0 then g.posY + g.dirY * moveSpeed else g.posY) ∧
      (c1 ≠ 0 → c2 = 0 → g'.posX = g.posX ∧ g'.posY = g.posY + g.dirY * moveSpeed) ∧
      g'.dirX = g.dirX ∧ g'.dirY = g.dirY ∧
      g'.planeX = g.planeX ∧ g'.planeY = g.planeY := by
  subst hms
  refine ⟨_, on_update_forward_only cos sin g delta_time c1 c2 hw hs hd ha h1 h2,
    rfl, rfl, ?_, rfl, rfl, rfl, rfl⟩
  intro hc1 hc2
  simp [hc1, hc2]

/-- Witness for C7: from (5.5, 5.5) along (1, 1) with moveSpeed 1, the X
destination (6, 5) is a wall and the Y destination (5, 6) is empty; the camera
ends at (5.5, 6.5). -/
theorem forward_translation_axis_separated_witness :
    ((slideExample.on_update (fun _ => 1) (fun _ => 0) (1 / 5)).map
      fun g => (g.posX, g.posY)) = some (11 / 2, 13 / 2) := by
  obtain ⟨g', hg', hx, hy, -⟩ :=
    forward_translation_axis_separated (fun _ => 1) (fun _ => 0) slideExample (1 / 5) 1 1 0
      (by norm_num) (by decide) (by decide) (by decide) (by decide)
      (by
        have e1 : toInt (slideExample.posX + slideExample.dirX * 1) = ((6 : Nat) : Int) :=
          toInt_eq_of_mem_Ico _ 6 (by norm_num [slideExample]) (by norm_num [slideExample])
        have e2 : toInt slideExample.posY = ((5 : Nat) : Int) :=
          toInt_eq_of_mem_Ico _ 5 (by norm_num [slideExample]) (by norm_num [slideExample])
        rw [e1, e2]
        decide)
      (by
        have e1 : toInt (if (1 : Int) = 0 then slideExample.posX + slideExample.dirX * 1
            else slideExample.posX) = ((5 : Nat) : Int) :=
          toInt_eq_of_mem_Ico _ 5 (by norm_num [slideExample]) (by norm_num [slideExample])
        have e2 : toInt (slideExample.posY + slideExample.dirY * 1) = ((6 : Nat) : Int) :=
          toInt_eq_of_mem_Ico _ 6 (by norm_num [slideExample]) (by norm_num [slideExample])
        rw [e1, e2]
        decide)
  rw [hg', Option.map_some', hx, hy]
  norm_num [slideExample]

/-- C6, as stated, fails: in the motion example the destination x = 5.4 lies in
cell (5, 5), which is empty, so on_update commits the X move and the position
becomes (5.4, 5.0), not (5.0, 5.0). -/
theorem motion_example_not_rejected :
    ((motionExample.on_update (fun _ => 1) (fun _ => 0) (2 / 25)).map
        fun g => (g.posX, g.posY)) = some (27 / 5, 5) ∧
      ((motionExample.on_update (fun _ => 1) (fun _ => 0) (2 / 25)).map
        fun g => (g.posX, g.posY)) ≠ some (5, 5) := by
  have e1 : toInt (motionExample.posX + motionExample.dirX * (2 / 25 * 5)) =
      ((5 : Nat) : Int) :=
    toInt_eq_of_mem_Ico _ 5 (by norm_num [motionExample]) (by norm_num [motionExample])
  have e2 : toInt motionExample.posY = ((5 : Nat) : Int) :=
    toInt_eq_of_mem_Ico _ 5 (by norm_num [motionExample]) (by norm_num [motionExample])
  have e3 : toInt (if (0 : Int) = 0 then
      motionExample.posX + motionExample.dirX * (2 / 25 * 5) else motionExample.posX) =
      ((5 : Nat) : Int) :=
    toInt_eq_of_mem_Ico _ 5 (by norm_num [motionExample]) (by norm_num [motionExample])
  have e4 : toInt (motionExample.posY + motionExample.dirY * (2 / 25 * 5)) =
      ((5 : Nat) : Int) :=
    toInt_eq_of_mem_Ico _ 5 (by norm_num [motionExample]) (by norm_num [motionExample])
  have h := on_update_forward_only (fun _ => 1) (fun _ => 0) motionExample (2 / 25) 0 0
    (by decide) (by decide) (by decide) (by decide)
    (by rw [e1, e2]; decide) (by rw [e3, e4]; decide)
  rw [h]
  constructor
  · norm_num [motionExample]
  · norm_num [motionExample]

/-- C6, amended: in the motion example (camera at (5, 5), direction (1, 0),
only W held, moveSpeed 0.4, every cell (6, y) a wall, cell (5, 5) empty)
on_update commits the X translation, because x = 5.4 truncates to the empty
cell (5, 5), and the position becomes (5.4, 5.0). -/
theorem motion_example_moves (cos sin : α → α) (g : Game α) (delta_time : α)
    (hms : delta_time * 5 = 2 / 5)
    (hpx : g.posX = 5) (hpy : g.posY = 5) (hdx : g.dirX = 1) (hdy : g.dirY = 0)
    (hw : g.key_manager.is_key_hold SDLK_w = true)
    (hs : g.key_manager.is_key_hold SDLK_s = false)
    (hd : g.key_manager.is_key_hold SDLK_d = false)
    (ha : g.key_manager.is_key_hold SDLK_a = false)
    (hW : 6 < g.MAP_WIDTH) (hH : 5 < g.MAP_HEIGHT)
    (_hwall : ∀ y, y < g.MAP_HEIGHT → g.worldMap 6 y ≠ 0)
    (hempty : g.worldMap 5 5 = 0) :
    ∃ g', g.on_update cos sin delta_time = some g' ∧
      g'.posX = 27 / 5 ∧ g'.posY = 5 := by
  have e1 : toInt (g.posX + g.dirX * (delta_time * 5)) = ((5 : Nat) : Int) :=
    toInt_eq_of_mem_Ico _ 5 (by rw [hms, hpx, hdx]; norm_num)
      (by rw [hms, hpx, hdx]; norm_num)
  have e2 : toInt g.posY = ((5 : Nat) : Int) :=
    toInt_eq_of_mem_Ico _ 5 (by rw [hpy]; norm_num) (by rw [hpy]; norm_num)
  have e3 : toInt (if (0 : Int) = 0 then g.posX + g.dirX * (delta_time * 5) else g.posX) =
      ((5 : Nat) : Int) := by
    rw [if_pos rfl]; exact e1
  have e4 : toInt (g.posY + g.dirY * (delta_time * 5)) = ((5 : Nat) : Int) :=
    toInt_eq_of_mem_Ico _ 5 (by rw [hms, hpy, hdy]; norm_num)
      (by rw [hms, hpy, hdy]; norm_num)
  have hcell : g.cell ((5 : Nat) : Int) ((5 : Nat) : Int) = some 0 := by
    have h5 : (5 : Int) < g.MAP_WIDTH := by exact_mod_cast (by omega : 5 < g.MAP_WIDTH)
    have h5' : (5 : Int) < g.MAP_HEIGHT := by exact_mod_cast hH
    simp [cell, h5, h5', hempty]
  refine ⟨_, on_update_forward_only cos sin g delta_time 0 0 hw hs hd ha
    (by rw [e1, e2]; exact hcell) (by rw [e3, e4]; exact hcell), ?_, ?_⟩
  · simp only [if_pos]
    rw [hms, hpx, hdx]; norm_num
  · simp only [if_pos]
    rw [hms, hpy, hdy]; norm_num

/-- Witness for the amended C6: the motion example itself. -/
theorem motion_example_moves_witness :
    ((motionExample.on_update (fun _ => 1) (fun _ => 0) (2 / 25)).map
        fun g => (g.posX, g.posY)) = some (27 / 5, 5) := by
  obtain ⟨g', hg', hx, hy⟩ :=
    motion_example_moves (fun _ => 1) (fun _ => 0) motionExample (2 / 25)
      (by norm_num) rfl rfl rfl rfl (by decide) (by decide) (by decide) (by decide)
      (by decide) (by decide) (fun _ _ => by simp [motionExample, create]) (by decide)
  rw [hg', Option.map_some', hx, hy]

end MotionTheorems


theorem handle_events_sameView (g : Game α) (events : List Event) :
    SameView g (g.handle_events events) := by
  induction events generalizing g with
  | nil => exact ⟨rfl, rfl, rfl, rfl⟩
  | cons e es ih =>
    cases e with
    | quit => exact ih _
    | key down key_code =>
      have h := ih (g.handle_key_events down key_code)
      unfold handle_key_events at h
      simp only [handle_events]
      unfold handle_key_events
      split_ifs at h ⊢ <;> exact h
    | mouseButton down b => exact ih _
    | mouseMotion => exact ih _

section ShapeLemmas

variable [LinearOrderedField α]

theorem sameShape_refl (g : Game α) : SameShape g g := ⟨rfl, rfl, rfl⟩

theorem sameShape_trans {g1 g2 g3 : Game α} (h12 : SameShape g1 g2) (h23 : SameShape g2 g3) :
    SameShape g1 g3 :=
  ⟨h23.1.trans h12.1, h23.2.1.trans h12.2.1, h23.2.2.trans h12.2.2⟩

theorem sameShape_ite {g a b : Game α} (c : Prop) [Decidable c]
    (ha : SameShape g a) (hb : SameShape g b) : SameShape g (if c then a else b) := by
  split_ifs <;> assumption

theorem sameShape_of_sameView {g g' : Game α} (h : SameView g g') : SameShape g g' := by
  obtain ⟨h1, h2, h3, h4⟩ := h
  simp [SameShape, h1, h2, h3, h4]

/-- A rotation block keeps norms and dot product whenever the cosine and sine
values it uses satisfy the Pythagorean identity. -/
theorem rotate_sameShape (cos sin : α → α) (g : Game α) (angle : α)
    (htrig : cos angle ^ 2 + sin angle ^ 2 = 1) :
    SameShape g (g.rotate cos sin angle) := by
  refine ⟨?_, ?_, ?_⟩
  · show (g.dirX * cos angle - g.dirY * sin angle) ^ 2 +
      (g.dirX * sin angle + g.dirY * cos angle) ^ 2 = g.dirX ^ 2 + g.dirY ^ 2
    linear_combination (g.dirX ^ 2 + g.dirY ^ 2) * htrig
  · show (g.planeX * cos angle - g.planeY * sin angle) ^ 2 +
      (g.planeX * sin angle + g.planeY * cos angle) ^ 2 = g.planeX ^ 2 + g.planeY ^ 2
    linear_combination (g.planeX ^ 2 + g.planeY ^ 2) * htrig
  · show (g.dirX * cos angle - g.dirY * sin angle) *
        (g.planeX * cos angle - g.planeY * sin angle) +
      (g.dirX * sin angle + g.dirY * cos angle) *
        (g.planeX * sin angle + g.planeY * cos angle) =
      g.dirX * g.planeX + g.dirY * g.planeY
    linear_combination (g.dirX * g.planeX + g.dirY * g.planeY) * htrig

end ShapeLemmas

section RotationLemmas

variable [LinearOrderedField α] [FloorRing α]

theorem moveForward_sameView (g g' : Game α) (moveSpeed : α)
    (h : g.moveForward moveSpeed = some g') : SameView g g' := by
  unfold moveForward at h
  cases h1 : g.cell (toInt (g.posX + g.dirX * moveSpeed)) (toInt g.posY) with
  | none => simp [h1] at h
  | some c1 =>
    simp only [h1, Option.bind_eq_bind, Option.some_bind] at h
    split_ifs at h with hc1
    · cases h2 : cell { g with posX := g.posX + g.dirX * moveSpeed }
          (toInt (g.posX + g.dirX * moveSpeed)) (toInt (g.posY + g.dirY * moveSpeed)) with
      | none => simp [h2] at h
      | some c2 =>
        simp only [h2, Option.some_bind] at h
        split_ifs at h <;> simp at h <;> subst h <;> exact ⟨rfl, rfl, rfl, rfl⟩
    · cases h2 : g.cell (toInt g.posX) (toInt (g.posY + g.dirY * moveSpeed)) with
      | none => simp [h2] at h
      | some c2 =>
        simp only [h2, Option.some_bind] at h
        split_ifs at h <;> simp at h <;> subst h <;> exact ⟨rfl, rfl, rfl, rfl⟩

theorem moveBackward_sameView (g g' : Game α) (moveSpeed : α)
    (h : g.moveBackward moveSpeed = some g') : SameView g g' := by
  unfold moveBackward at h
  cases h1 : g.cell (toInt (g.posX - g.dirX * moveSpeed)) (toInt g.posY) with
  | none => simp [h1] at h
  | some c1 =>
    simp only [h1, Option.bind_eq_bind, Option.some_bind] at h
    split_ifs at h with hc1
    · cases h2 : cell { g with posX := g.posX - g.dirX * moveSpeed }
          (toInt (g.posX - g.dirX * moveSpeed)) (toInt (g.posY - g.dirY * moveSpeed)) with
      | none => simp [h2] at h
      | some c2 =>
        simp only [h2, Option.some_bind] at h
        split_ifs at h <;> simp at h <;> subst h <;> exact ⟨rfl, rfl, rfl, rfl⟩
    · cases h2 : g.cell (toInt g.posX) (toInt (g.posY - g.dirY * moveSpeed)) with
      | none => simp [h2] at h
      | some c2 =>
        simp only [h2, Option.some_bind] at h
        split_ifs at h <;> simp at h <;> subst h <;> exact ⟨rfl, rfl, rfl, rfl⟩

theorem on_update_eq_bind (cos sin : α → α) (g : Game α) (delta_time : α) :
    g.on_update cos sin delta_time =
      ((if g.key_manager.is_key_hold SDLK_w then g.moveForward (delta_time * 5)
        else some g).bind fun g1 =>
        (if g1.key_manager.is_key_hold SDLK_s then g1.moveBackward (delta_time * 5)
          else some g1).bind fun g2 =>
          let g3 := if g2.key_manager.is_key_hold SDLK_d then
            g2.rotate cos sin (-(delta_time * 3)) else g2
          some (if g3.key_manager.is_key_hold SDLK_a then g3.rotate cos sin (delta_time * 3)
            else g3)) := by
  unfold on_update
  by_cases hw : g.key_manager.is_key_hold SDLK_w = true
  · simp only [hw, if_true, Option.bind_eq_bind, Option.pure_def]
    congr 1
    funext g1
    by_cases hs : g1.key_manager.is_key_hold SDLK_s = true
    · simp only [hs, if_true]
    · simp only [hs]; rfl
  · simp only [hw, Option.bind_eq_bind, Option.pure_def]
    simp only [Bool.false_eq_true, if_false, Option.some_bind]
    by_cases hs : g.key_manager.is_key_hold SDLK_s = true
    · simp only [hs, if_true]
    · simp only [hs]; rfl

theorem on_update_sameShape (cos sin : α → α) (htrig : ∀ x, cos x ^ 2 + sin x ^ 2 = 1)
    (g g' : Game α) (delta_time : α) (h : g.on_update cos sin delta_time = some g') :
    SameShape g g' := by
  rw [on_update_eq_bind] at h
  simp only [Option.bind_eq_some, Option.some.injEq] at h
  obtain ⟨g1, hg1, g2, hg2, h⟩ := h
  have s1 : SameShape g g1 := by
    split_ifs at hg1
    · exact sameShape_of_sameView (moveForward_sameView _ _ _ hg1)
    · cases hg1; exact sameShape_refl g
  have s2 : SameShape g1 g2 := by
    split_ifs at hg2
    · exact sameShape_of_sameView (moveBackward_sameView _ _ _ hg2)
    · cases hg2; exact sameShape_refl g1
  have s3 : SameShape g2
      (if g2.key_manager.is_key_hold SDLK_d then g2.rotate cos sin (-(delta_time * 3))
        else g2) :=
    sameShape_ite _ (rotate_sameShape cos sin g2 _ (htrig _)) (sameShape_refl g2)
  have s4 : SameShape g2 g' := by
    rw [← h]
    exact sameShape_ite _ (sameShape_trans s3 (rotate_sameShape cos sin _ _ (htrig _))) s3
  exact sameShape_trans (sameShape_trans s1 s2) s4

theorem on_update_isSome_of_no_move (cos sin : α → α) (g : Game α) (delta_time : α)
    (hw : g.key_manager.is_key_hold SDLK_w = false)
    (hs : g.key_manager.is_key_hold SDLK_s = false) :
    ∃ g', g.on_update cos sin delta_time = some g' := by
  simp [on_update, hw, hs]

theorem runTicks_sameShape (cos sin : α → α) (htrig : ∀ x, cos x ^ 2 + sin x ^ 2 = 1)
    (g g' : Game α) (ticks : List (List Event × α))
    (h : runTicks cos sin g ticks = some g') : SameShape g g' := by
  induction ticks generalizing g with
  | nil =>
    simp only [runTicks, Option.some.injEq] at h
    subst h; exact sameShape_refl g
  | cons t ts ih =>
    obtain ⟨events, delta_time⟩ := t
    simp only [runTicks] at h
    split_ifs at h with hr
    · cases hu : (g.handle_events events).on_update cos sin delta_time with
      | none => simp [hu] at h
      | some g1 =>
        simp only [hu] at h
        exact sameShape_trans
          (sameShape_trans (sameShape_of_sameView (handle_events_sameView g events))
            (on_update_sameShape cos sin htrig _ _ _ hu)) (ih g1 h)
    · simp only [Option.some.injEq] at h
      subst h; exact sameShape_refl g

end RotationLemmas

/-- C8: over the reals, a tick of on_update with no translation key held
returns a state, and any tick of on_update that returns a state (so any
rotation step, A held or D held, for any rotSpeed = 3 * delta_time) leaves
dirX^2 + dirY^2, planeX^2 + planeY^2 and dirX*planeX + dirY*planeY unchanged;
hence after any sequence of ticks from the initial pose the direction has norm
1 and is perpendicular to the plane. -/
theorem rotation_preserves_shape :
    (∀ (g : Game ℝ) (delta_time : ℝ),
      g.key_manager.is_key_hold SDLK_w = false →
      g.key_manager.is_key_hold SDLK_s = false →
      ∃ g', g.on_update Real.cos Real.sin delta_time = some g') ∧
    (∀ (g g' : Game ℝ) (delta_time : ℝ),
      g.on_update Real.cos Real.sin delta_time = some g' →
      g'.dirX ^ 2 + g'.dirY ^ 2 = g.dirX ^ 2 + g.dirY ^ 2 ∧
      g'.planeX ^ 2 + g'.planeY ^ 2 = g.planeX ^ 2 + g.planeY ^ 2 ∧
      g'.dirX * g'.planeX + g'.dirY * g'.planeY =
        g.dirX * g.planeX + g.dirY * g.planeY) ∧
    (∀ (width height : Int) (title : String) (mapWidth mapHeight : Nat)
      (settingsWorldMap : Nat → Nat → Int) (ticks : List (List Event × ℝ)) (g' : Game ℝ),
      runTicks Real.cos Real.sin
        (create width height title mapWidth mapHeight settingsWorldMap) ticks = some g' →
      g'.dirX ^ 2 + g'.dirY ^ 2 = 1 ∧
      g'.dirX * g'.planeX + g'.dirY * g'.planeY = 0) := by
  have htrig : ∀ x : ℝ, Real.cos x ^ 2 + Real.sin x ^ 2 = 1 := Real.cos_sq_add_sin_sq
  refine ⟨fun g dt hw hs => on_update_isSome_of_no_move _ _ g dt hw hs,
    fun g g' dt h => on_update_sameShape _ _ htrig g g' dt h, ?_⟩
  intro width height title mapWidth mapHeight settingsWorldMap ticks g' h
  obtain ⟨h1, -, h3⟩ := runTicks_sameShape _ _ htrig _ g' ticks h
  constructor
  · rw [h1]; simp [create]
  · rw [h3]; simp [create]

/-- Witness for C8: from the initial pose with D pressed, one tick with
delta_time 1 (a turn by -3 radians) returns a state whose direction still has
squared norm 1. -/
theorem rotation_preserves_shape_witness :
    ((((create 640 480 "game" 24 24 (fun _ _ => 0) : Game ℝ).handle_events
        [Event.key true SDLK_d]).on_update Real.cos Real.sin 1).map
      fun g => g.dirX ^ 2 + g.dirY ^ 2) = some 1 := by
  obtain ⟨g', hg'⟩ := rotation_preserves_shape.1
    ((create 640 480 "game" 24 24 (fun _ _ => 0) : Game ℝ).handle_events
      [Event.key true SDLK_d]) 1 (by decide) (by decide)
  have h := (rotation_preserves_shape.2.1 _ g' 1 hg').1
  rw [hg', Option.map_some', h]
  simp [handle_events, handle_key_events, create, SDLK_d, ESCAPE_KEY]

section DDATheorems

variable [LinearOrder α] [Add α]

/-- C10, amended: in the DDA loop ties go to Y, and X is stepped only when
sideDistX is strictly less than sideDistY. In every iteration in which
sideDistX equals sideDistY the step is taken along the Y axis (side = 1, mapY
advanced by stepY, sideDistY increased by deltaDistY) and mapX and sideDistX
are left as they were; side = 0 exactly when sideDistX < sideDistY; when
sideDistX < sideDistY the step is the X step (mapX advanced by stepX,
sideDistX increased by deltaDistX, mapY and sideDistY unchanged); and whenever
sideDistX < sideDistY fails the step is the Y step. -/
theorem dda_tie_steps_y (r : Ray α) (s : DDAState α) :
    (s.sideDistX = s.sideDistY →
      (ddaStep r s).side = 1 ∧
        (ddaStep r s).mapY = s.mapY + r.stepY ∧
        (ddaStep r s).sideDistY = s.sideDistY + r.deltaDistY ∧
        (ddaStep r s).mapX = s.mapX ∧
        (ddaStep r s).sideDistX = s.sideDistX) ∧
    ((ddaStep r s).side = 0 ↔ s.sideDistX < s.sideDistY) ∧
    (s.sideDistX < s.sideDistY →
      (ddaStep r s).side = 0 ∧
        (ddaStep r s).mapX = s.mapX + r.stepX ∧
        (ddaStep r s).sideDistX = s.sideDistX + r.deltaDistX ∧
        (ddaStep r s).mapY = s.mapY ∧
        (ddaStep r s).sideDistY = s.sideDistY) ∧
    (¬ s.sideDistX < s.sideDistY →
      (ddaStep r s).side = 1 ∧
        (ddaStep r s).mapY = s.mapY + r.stepY ∧
        (ddaStep r s).sideDistY = s.sideDistY + r.deltaDistY ∧
        (ddaStep r s).mapX = s.mapX ∧
        (ddaStep r s).sideDistX = s.sideDistX) := by
  refine ⟨?_, ?_, ?_, ?_⟩
  · intro htie
    have h : ¬ s.sideDistX < s.sideDistY := by rw [htie]; exact lt_irrefl _
    simp [ddaStep, h]
  · by_cases h : s.sideDistX < s.sideDistY <;> simp [ddaStep, h]
  · intro h
    simp [ddaStep, h]
  · intro h
    simp [ddaStep, h]

end DDATheorems

/-- C10, as stated, fails: with sideDistX = sideDistY = 1/2 (as for a camera
at (1.5, 1.5) and ray direction (1, 1)) the step goes along Y: side is 1, mapX
is not advanced, sideDistX is not increased. -/
theorem dda_tie_not_x :
    (tieState.sideDistX = tieState.sideDistY) ∧
      ¬ ((ddaStep tieRay tieState).side = 0 ∧
        (ddaStep tieRay tieState).mapX = tieState.mapX + tieRay.stepX ∧
        (ddaStep tieRay tieState).sideDistX = tieState.sideDistX + tieRay.deltaDistX) ∧
      (ddaStep tieRay tieState).side = 1 ∧
      (ddaStep tieRay tieState).mapX = 1 ∧ (ddaStep tieRay tieState).mapY = 2 := by
  refine ⟨rfl, ?_, ?_, ?_, ?_⟩ <;> simp [ddaStep, tieState, tieRay]

/-- Witness for the amended C10: the tie state steps along Y to cell (1, 2);
with sideDistX = 10 and sideDistY = 1 the step is again along Y (mapX stays
1); with sideDistX = 1 and sideDistY = 10 the step is along X to cell
(2, 1). -/
theorem dda_tie_steps_y_witness :
    ((ddaStep tieRay tieState).side = 1 ∧ (ddaStep tieRay tieState).mapY = 2) ∧
      ((ddaStep tieRay yNearState).side = 1 ∧ (ddaStep tieRay yNearState).mapX = 1 ∧
        (ddaStep tieRay yNearState).mapY = 2) ∧
      ((ddaStep tieRay xNearState).side = 0 ∧ (ddaStep tieRay xNearState).mapX = 2 ∧
        (ddaStep tieRay xNearState).mapY = 1) := by
  have ht := (dda_tie_steps_y tieRay tieState).1 rfl
  have hy := (dda_tie_steps_y tieRay yNearState).2.2.2 (by norm_num [yNearState])
  have hx := (dda_tie_steps_y tieRay xNearState).2.2.1 (by norm_num [xNearState])
  refine ⟨⟨ht.1, ?_⟩, ⟨hy.1, ?_, ?_⟩, ⟨hx.1, ?_, ?_⟩⟩
  · rw [ht.2.1]; rfl
  · rw [hy.2.2.2.1]; rfl
  · rw [hy.2.1]; rfl
  · rw [hx.2.1]; rfl
  · rw [hx.2.2.2.1]; rfl

/-! ## The DDA loop: path, first positive cell, enclosed maps -/

theorem cell_eq_some_inBounds (g : Game α) (i j c : Int) (h : g.cell i j = some c) :
    0 ≤ i ∧ i < g.MAP_WIDTH ∧ 0 ≤ j ∧ j < g.MAP_HEIGHT := by
  unfold cell at h
  split_ifs at h with hb
  exact hb

theorem cell_of_inBounds (g : Game α) (i j : Int)
    (h : 0 ≤ i ∧ i < g.MAP_WIDTH ∧ 0 ≤ j ∧ j < g.MAP_HEIGHT) :
    g.cell i j = some (g.worldMap i.toNat j.toNat) := by
  unfold cell
  rw [if_pos h]

theorem strictlyInside_borderDist (g : Game α) (r : Ray α) (s : DDAState α)
    (hin : StrictlyInside g s) :
    2 ≤ borderDist g r s ∧ borderDist g r s + 4 ≤ g.MAP_WIDTH + g.MAP_HEIGHT := by
  obtain ⟨h1, h2, h3, h4⟩ := hin
  unfold borderDist
  split_ifs <;> constructor <;> omega

section DDALoopLemmas

variable [LinearOrder α] [Add α]

theorem ddaStep_map (r : Ray α) (s : DDAState α) :
    ((ddaStep r s).mapX = s.mapX + r.stepX ∧ (ddaStep r s).mapY = s.mapY) ∨
      ((ddaStep r s).mapX = s.mapX ∧ (ddaStep r s).mapY = s.mapY + r.stepY) := by
  unfold ddaStep
  by_cases h : s.sideDistX < s.sideDistY <;> simp [h]

/-- A bounded run of the loop ends in a hit at `s'` exactly when `s'` is the
state after some `n` iterations within the fuel, its cell has a positive code,
and every cell stepped into before it is inside the map with a code that is
not positive. -/
theorem ddaLoop_eq_hit_iff (g : Game α) (r : Ray α) (fuel : Nat) (s s' : DDAState α) :
    ddaLoop g r fuel s = DDAResult.hit s' ↔
      ∃ n, 0 < n ∧ n ≤ fuel ∧ s' = ddaIter r n s ∧
        (∃ c, g.cell s'.mapX s'.mapY = some c ∧ 0 < c) ∧
        ∀ i, 0 < i → i < n →
          ∃ c, g.cell (ddaIter r i s).mapX (ddaIter r i s).mapY = some c ∧ c ≤ 0 := by
  induction fuel generalizing s with
  | zero =>
    constructor
    · intro h
      simp [ddaLoop] at h
    · rintro ⟨n, hn, hle, -⟩
      omega
  | succ fuel ih =>
    have hone : ddaIter r 1 s = ddaStep r s := rfl
    simp only [ddaLoop]
    cases hc : g.cell (ddaStep r s).mapX (ddaStep r s).mapY with
    | none =>
      constructor
      · intro h
        simp at h
      · rintro ⟨n, hn, hle, rfl, ⟨c, hc', -⟩, hpath⟩
        rcases n with _ | _ | n
        · omega
        · rw [hone, hc] at hc'
          cases hc'
        · obtain ⟨c1, h1, -⟩ := hpath 1 (by omega) (by omega)
          rw [hone, hc] at h1
          cases h1
    | some c =>
      by_cases hpos : c > 0
      · simp only [hpos, if_true]
        constructor
        · intro h
          have hs : ddaStep r s = s' := by
            simpa using h
          subst hs
          exact ⟨1, by omega, by omega, rfl, ⟨c, hc, hpos⟩, fun i h1 h2 => by omega⟩
        · rintro ⟨n, hn, hle, rfl, -, hpath⟩
          rcases n with _ | _ | n
          · omega
          · rfl
          · obtain ⟨c1, h1, hle1⟩ := hpath 1 (by omega) (by omega)
            rw [hone, hc] at h1
            cases h1
            omega
      · simp only [hpos, if_false]
        rw [ih]
        constructor
        · rintro ⟨n, hn, hle, rfl, hhit, hpath⟩
          refine ⟨n + 1, by omega, by omega, rfl, hhit, ?_⟩
          intro i h1 h2
          rcases i with _ | i
          · omega
          · rcases i with _ | i
            · exact ⟨c, by rw [hone]; exact hc, by omega⟩
            · exact hpath (i + 1) (by omega) (by omega)
        · rintro ⟨n, hn, hle, rfl, hhit, hpath⟩
          rcases n with _ | _ | n
          · omega
          · obtain ⟨c1, h1, hpos1⟩ := hhit
            rw [hone, hc] at h1
            cases h1
            exact absurd hpos1 hpos
          · refine ⟨n + 1, by omega, by omega, rfl, hhit, ?_⟩
            intro i h1 h2
            exact hpath (i + 1) (by omega) (by omega)

/-- In an enclosed map, from a cell strictly inside the border, the stepped
path reaches a cell of positive code, staying inside the map before that,
after fewer iterations than the distance to the border ahead. -/
theorem enclosed_path (g : Game α) (r : Ray α) (henc : Enclosed g) (hstep : UnitSteps r)
    (m : Nat) :
    ∀ s : DDAState α, StrictlyInside g s → borderDist g r s ≤ m →
      ∃ n : Nat, 0 < n ∧ (n : Int) + 1 ≤ m ∧
        (∃ c, g.cell (ddaIter r n s).mapX (ddaIter r n s).mapY = some c ∧ 0 < c) ∧
        ∀ i, 0 < i → i < n →
          ∃ c, g.cell (ddaIter r i s).mapX (ddaIter r i s).mapY = some c ∧ c ≤ 0 := by
  induction m with
  | zero =>
    intro s hin hm
    have := (strictlyInside_borderDist g r s hin).1
    omega
  | succ m ih =>
    intro s hin hm
    have hd := (strictlyInside_borderDist g r s hin).1
    have hone : ddaIter r 1 s = ddaStep r s := rfl
    obtain ⟨h1, h2, h3, h4⟩ := hin
    obtain ⟨hsx, hsy⟩ := hstep
    have hb : 0 ≤ (ddaStep r s).mapX ∧ (ddaStep r s).mapX < g.MAP_WIDTH ∧
        0 ≤ (ddaStep r s).mapY ∧ (ddaStep r s).mapY < g.MAP_HEIGHT := by
      rcases ddaStep_map r s with ⟨hx, hy⟩ | ⟨hx, hy⟩ <;> rcases hsx with hsx | hsx <;>
        rcases hsy with hsy | hsy <;> rw [hx, hy] <;> omega
    have hcell := cell_of_inBounds g _ _ hb
    by_cases hpos : 0 < g.worldMap (ddaStep r s).mapX.toNat (ddaStep r s).mapY.toNat
    · refine ⟨1, by omega, by push_cast; omega, ⟨_, by rw [hone]; exact hcell, hpos⟩, ?_⟩
      intro i hi1 hi2
      omega
    · have hin1 : StrictlyInside g (ddaStep r s) := by
        by_contra hout
        apply hpos
        obtain ⟨b1, b2, b3, b4⟩ := hb
        apply henc _ (by omega) _ (by omega)
        unfold StrictlyInside at hout
        omega
      have hdist : borderDist g r (ddaStep r s) ≤ m := by
        unfold borderDist at hm ⊢
        rcases ddaStep_map r s with ⟨hx, hy⟩ | ⟨hx, hy⟩ <;> rcases hsx with hsx | hsx <;>
          rcases hsy with hsy | hsy <;> rw [hx, hy] <;> simp only [hsx, hsy] at hm ⊢ <;>
          norm_num at hm ⊢ <;> omega
      obtain ⟨n, hn, hnm, hhit, hpath⟩ := ih (ddaStep r s) hin1 hdist
      refine ⟨n + 1, by omega, by push_cast; omega, hhit, ?_⟩
      intro i hi1 hi2
      rcases i with _ | i
      · omega
      · rcases i with _ | i
        · exact ⟨_, by rw [hone]; exact hcell, by omega⟩
        · exact hpath (i + 1) (by omega) (by omega)

end DDALoopLemmas

section DDAEntryLemmas

variable [LinearOrderedField α] [FloorRing α]

theorem ddaEntry_unitSteps (g : Game α) (rayDirX rayDirY deltaDistX deltaDistY : α) :
    UnitSteps (g.ddaEntry rayDirX rayDirY deltaDistX deltaDistY).1 := by
  unfold UnitSteps ddaEntry
  constructor
  · by_cases h : rayDirX < 0 <;> simp [h]
  · by_cases h : rayDirY < 0 <;> simp [h]

theorem ddaEntry_map (g : Game α) (rayDirX rayDirY deltaDistX deltaDistY : α) :
    (g.ddaEntry rayDirX rayDirY deltaDistX deltaDistY).2.mapX = toInt g.posX ∧
      (g.ddaEntry rayDirX rayDirY deltaDistX deltaDistY).2.mapY = toInt g.posY :=
  ⟨rfl, rfl⟩

end DDAEntryLemmas

section DDAClaims

variable [LinearOrder α] [Add α]

/-- C11, amended: the DDA loop stops at the first cell it steps into whose
code is positive. A bounded run of the loop from s ends in a hit at s' exactly
when s' is the state after some n >= 1 iterations, the cell (mapX, mapY) of s'
has a positive code, and every cell stepped into before it is inside the map
with a code <= 0; cells with negative codes are stepped through like empty
ones. -/
theorem dda_stops_at_first_positive (g : Game α) (r : Ray α) (fuel : Nat)
    (s s' : DDAState α) :
    ddaLoop g r fuel s = DDAResult.hit s' ↔
      ∃ n, 0 < n ∧ n ≤ fuel ∧ s' = ddaIter r n s ∧
        (∃ c, g.cell s'.mapX s'.mapY = some c ∧ 0 < c) ∧
        ∀ i, 0 < i → i < n →
          ∃ c, g.cell (ddaIter r i s).mapX (ddaIter r i s).mapY = some c ∧ c ≤ 0 :=
  ddaLoop_eq_hit_iff g r fuel s s'

/-- C12: in a map whose border cells all have a positive code, from a cell
strictly inside the border and with steps of -1 or 1, whatever the values of
sideDist and deltaDist, the DDA loop ends in a hit after n <= W + H
iterations (with any fuel of at least n), every index pair it reads is inside
the array, and the cell at exit has a positive code. -/
theorem enclosed_ray_hits (g : Game α) (r : Ray α) (s : DDAState α)
    (henc : Enclosed g) (hin : StrictlyInside g s) (hstep : UnitSteps r) :
    ∃ n, 0 < n ∧ n ≤ g.MAP_WIDTH + g.MAP_HEIGHT ∧
      (∀ fuel, n ≤ fuel → ddaLoop g r fuel s = DDAResult.hit (ddaIter r n s)) ∧
      (∀ i, 0 < i → i ≤ n → InBounds g (ddaIter r i s)) ∧
      ∃ c, g.cell (ddaIter r n s).mapX (ddaIter r n s).mapY = some c ∧ 0 < c := by
  have hd := (strictlyInside_borderDist g r s hin).2
  obtain ⟨n, hn, hnm, hhit, hpath⟩ :=
    enclosed_path g r henc hstep (g.MAP_WIDTH + g.MAP_HEIGHT) s hin (by push_cast; omega)
  refine ⟨n, hn, by push_cast at hnm; omega, ?_, ?_, hhit⟩
  · intro fuel hfuel
    exact (ddaLoop_eq_hit_iff g r fuel s _).mpr ⟨n, hn, hfuel, rfl, hhit, hpath⟩
  · intro i hi1 hi2
    rcases Nat.lt_or_ge i n with hlt | hge
    · obtain ⟨c, hc, -⟩ := hpath i hi1 hlt
      exact cell_eq_some_inBounds g _ _ c hc
    · have hi : i = n := by omega
      subst hi
      obtain ⟨c, hc, -⟩ := hhit
      exact cell_eq_some_inBounds g _ _ c hc

end DDAClaims

theorem negStep1 : ddaStep negRay negStart =
    { mapX := 2, mapY := 1, sideDistX := 3, sideDistY := 10, side := 0, totalDistance := 2 } := by
  norm_num [ddaStep, negRay, negStart]

theorem negStep2 : ddaStep negRay
    { mapX := 2, mapY := 1, sideDistX := 3, sideDistY := 10, side := 0, totalDistance := 2 } =
    { mapX := 3, mapY := 1, sideDistX := 5, sideDistY := 10, side := 0, totalDistance := 4 } := by
  norm_num [ddaStep, negRay]

theorem negStep3 : ddaStep negRay
    { mapX := 3, mapY := 1, sideDistX := 5, sideDistY := 10, side := 0, totalDistance := 4 } =
    { mapX := 4, mapY := 1, sideDistX := 7, sideDistY := 10, side := 0, totalDistance := 6 } := by
  norm_num [ddaStep, negRay]

theorem negEntry : negExample.ddaEntry (1 / 2) (1 / 20) 2 20 = (negRay, negStart) := by
  have e1 : toInt negExample.posX = ((1 : Nat) : Int) :=
    toInt_eq_of_mem_Ico _ 1 (by norm_num [negExample]) (by norm_num [negExample])
  have e2 : toInt negExample.posY = ((1 : Nat) : Int) :=
    toInt_eq_of_mem_Ico _ 1 (by norm_num [negExample]) (by norm_num [negExample])
  simp only [ddaEntry, e1, e2]
  norm_num [negExample, negRay, negStart]

/-- C11, as stated, fails: for the camera at (1.5, 1.5) and the ray of
direction (1/2, 1/20) on a map whose cell (2, 1) has code -1 and whose cell
(4, 1) has code 3, the loop is entered at cell (1, 1), steps into (2, 1),
whose code is not 0, does not stop there, and exits at (4, 1). -/
theorem dda_passes_negative_cell :
    negExample.ddaEntry (1 / 2) (1 / 20) 2 20 = (negRay, negStart) ∧
      ddaLoop negExample negRay 3 negStart = DDAResult.hit (ddaIter negRay 3 negStart) ∧
      (ddaIter negRay 3 negStart).mapX = 4 ∧ (ddaIter negRay 3 negStart).mapY = 1 ∧
      (ddaIter negRay 1 negStart).mapX = 2 ∧ (ddaIter negRay 1 negStart).mapY = 1 ∧
      negExample.cell 2 1 = some (-1) ∧ (-1 : Int) ≠ 0 := by
  refine ⟨negEntry, ?_, ?_, ?_, ?_, ?_, rfl, by decide⟩
  · simp only [ddaLoop, ddaIter, negStep1, negStep2, negStep3]
    rfl
  · simp only [ddaIter, negStep1, negStep2, negStep3]
  · simp only [ddaIter, negStep1, negStep2, negStep3]
  · simp only [ddaIter, negStep1]
  · simp only [ddaIter, negStep1]

/-- Witness for the amended C11: with fuel 10 the loop of the example ends in
the hit after 3 iterations, past the cells (2, 1) of code -1 and (3, 1) of
code 0. -/
theorem dda_stops_at_first_positive_witness :
    ddaLoop negExample negRay 10 negStart = DDAResult.hit (ddaIter negRay 3 negStart) := by
  refine (dda_stops_at_first_positive negExample negRay 10 negStart _).mpr
    ⟨3, by decide, by decide, rfl, ⟨3, ?_, by decide⟩, ?_⟩
  · simp only [ddaIter, negStep1, negStep2, negStep3]
    rfl
  · intro i h1 h2
    interval_cases i
    · exact ⟨-1, by simp only [ddaIter, negStep1]; rfl, by decide⟩
    · exact ⟨0, by simp only [ddaIter, negStep1, negStep2]; rfl, by decide⟩

theorem boxExample_enclosed : Enclosed boxExample := by
  intro i hi j hj hb
  have hi' : i < 5 := hi
  have hj' : j < 5 := hj
  have hb' : i = 0 ∨ i + 1 = 5 ∨ j = 0 ∨ j + 1 = 5 := hb
  show 0 < (if i = 0 ∨ i = 4 ∨ j = 0 ∨ j = 4 then (1 : Int) else 0)
  rw [if_pos (by omega)]
  decide

theorem boxExample_strictlyInside (rayDirX rayDirY deltaDistX deltaDistY : ℚ) :
    StrictlyInside boxExample (boxExample.ddaEntry rayDirX rayDirY deltaDistX deltaDistY).2 := by
  have e1 : toInt boxExample.posX = ((2 : Nat) : Int) :=
    toInt_eq_of_mem_Ico _ 2 (by norm_num [boxExample]) (by norm_num [boxExample])
  have e2 : toInt boxExample.posY = ((2 : Nat) : Int) :=
    toInt_eq_of_mem_Ico _ 2 (by norm_num [boxExample]) (by norm_num [boxExample])
  unfold StrictlyInside
  rw [(ddaEntry_map _ _ _ _ _).1, (ddaEntry_map _ _ _ _ _).2, e1, e2]
  decide

/-- Witness for C12: on the 5 by 5 box map, for the camera at (2.5, 2.5) and
the ray of direction (1/2, 1/20) as on_draw sets it up, the loop run with fuel
5 + 5 ends in a hit on a cell inside the map whose code is positive. -/
theorem enclosed_ray_hits_witness :
    Enclosed boxExample ∧ StrictlyInside boxExample boxEntry.2 ∧ UnitSteps boxEntry.1 ∧
      ∃ s', ddaLoop boxExample boxEntry.1 (5 + 5) boxEntry.2 = DDAResult.hit s' ∧
        InBounds boxExample s' ∧ ∃ c, boxExample.cell s'.mapX s'.mapY = some c ∧ 0 < c := by
  obtain ⟨n, hn, hle, hloop, hb, hhit⟩ :=
    enclosed_ray_hits boxExample boxEntry.1 boxEntry.2 boxExample_enclosed
      (boxExample_strictlyInside _ _ _ _) (ddaEntry_unitSteps _ _ _ _ _)
  exact ⟨boxExample_enclosed, boxExample_strictlyInside _ _ _ _, ddaEntry_unitSteps _ _ _ _ _,
    _, hloop (5 + 5) hle, hb n hn (le_refl n), hhit⟩

end Game
end GameLogic
